import Mathlib

/-!
Verification of the dismissal-detection hook
(`plugins/personal/hooks/unrelated-issue-detector.py`).

The Python source is shallowly embedded below: pure helpers become Lean
functions, fallible code returns `Option` (with `none` standing for an
uncaught Python exception), and the hook entry point `main` is a pure
function from an explicit environment (parsed stdin, file system, offset
store, writability of the offset directory) to a result (new offset store,
optional stdout directive, exit kind).
-/

namespace Detector

/-! ## Python string helpers

`pyIsSpace` models the whitespace set used by Python's `str.strip` and by
the regex class `\s` on `str` patterns (ASCII whitespace plus the Unicode
space characters); the two agree on every character this development
evaluates on. -/

def pyIsSpace (c : Char) : Bool :=
  c = ' ' || c = '\t' || c = '\n' || c = '\r' ||
  c = Char.ofNat 0x0b || c = Char.ofNat 0x0c ||
  (Char.ofNat 0x1c ≤ c && c ≤ Char.ofNat 0x1f) ||
  c = Char.ofNat 0x85 || c = Char.ofNat 0xa0 ||
  c = Char.ofNat 0x1680 ||
  (Char.ofNat 0x2000 ≤ c && c ≤ Char.ofNat 0x200a) ||
  c = Char.ofNat 0x2028 || c = Char.ofNat 0x2029 ||
  c = Char.ofNat 0x202f || c = Char.ofNat 0x205f || c = Char.ofNat 0x3000

/-- Python `str.strip()` on a list of characters. -/
def stripChars (s : List Char) : List Char :=
  ((s.dropWhile pyIsSpace).reverse.dropWhile pyIsSpace).reverse

/-- Python `s.split("\n")`: split at every newline, keeping empty pieces
(`"".split("\n") == [""]`). -/
def splitNL : List Char → List (List Char)
  | [] => [[]]
  | c :: rest =>
    if c = '\n' then [] :: splitNL rest
    else
      match splitNL rest with
      | [] => [[c]]
      | l :: ls => (c :: l) :: ls

/-- ASCII lower-casing of one character.  Python's `str.lower` is the Unicode
default case map; it agrees with this on ASCII, and the dismissal patterns
mention only ASCII characters. -/
def pyLowerChar (c : Char) : Char :=
  if 'A' ≤ c && c ≤ 'Z' then Char.ofNat (c.toNat + 32) else c

def pyLower (s : List Char) : List Char := s.map pyLowerChar

/-! ## Decimal numerals: `str(int)` and `int(str)` -/

def digitChar : Nat → Char
  | 0 => '0' | 1 => '1' | 2 => '2' | 3 => '3' | 4 => '4'
  | 5 => '5' | 6 => '6' | 7 => '7' | 8 => '8' | _ => '9'

/-- Accumulator loop for decimal printing; the fuel is structural so the
kernel can evaluate it (it is ample at `n + 1`). -/
def natToDecAux : Nat → Nat → List Char → List Char
  | 0, _, acc => acc
  | fuel + 1, n, acc =>
    if n < 10 then digitChar n :: acc
    else natToDecAux fuel (n / 10) (digitChar (n % 10) :: acc)

/-- Decimal digits of a natural number, most significant first
(the digits of Python's `str(n)` for `n >= 0`). -/
def natToDec (n : Nat) : List Char := natToDecAux (n + 1) n []

theorem natToDecAux_append : ∀ fuel n acc,
    natToDecAux fuel n acc = natToDecAux fuel n [] ++ acc := by
  intro fuel
  induction fuel with
  | zero => intro n acc; rfl
  | succ f ih =>
    intro n acc
    by_cases h : n < 10
    · simp only [natToDecAux, if_pos h]
      rfl
    · simp only [natToDecAux, if_neg h]
      rw [ih (n / 10) (digitChar (n % 10) :: acc), ih (n / 10) [digitChar (n % 10)],
        List.append_assoc]
      rfl

theorem natToDecAux_fuel : ∀ f1 f2 n acc, n < f1 → n < f2 →
    natToDecAux f1 n acc = natToDecAux f2 n acc := by
  intro f1
  induction f1 with
  | zero => intro f2 n acc h1; exact absurd h1 (by omega)
  | succ g ih =>
    intro f2 n acc h1 h2
    cases f2 with
    | zero => exact absurd h2 (by omega)
    | succ h =>
      by_cases hn : n < 10
      · simp only [natToDecAux, if_pos hn]
      · simp only [natToDecAux, if_neg hn]
        exact ih h (n / 10) _ (by omega) (by omega)

/-- The recurrence of decimal printing. -/
theorem natToDec_eq (n : Nat) :
    natToDec n = if n < 10 then [digitChar n]
      else natToDec (n / 10) ++ [digitChar (n % 10)] := by
  by_cases h : n < 10
  · rw [if_pos h]
    unfold natToDec
    simp only [natToDecAux, if_pos h]
  · rw [if_neg h]
    unfold natToDec
    conv_lhs => rw [show natToDecAux (n + 1) n [] =
      natToDecAux n (n / 10) [digitChar (n % 10)] from by
        simp only [natToDecAux, if_neg h]]
    rw [natToDecAux_append,
      natToDecAux_fuel n (n / 10 + 1) (n / 10) [] (by omega) (by omega)]

/-- Python `str(i)` for an `int` value. -/
def intToDec (i : Int) : List Char :=
  if i < 0 then '-' :: natToDec (-i).toNat else natToDec i.toNat

def digitVal (c : Char) : Option Nat :=
  if c.isDigit then some (c.toNat - 48) else none

/-- Digit loop of Python `int(str)`: digits with single underscores allowed
between digits (`int("1_2") == 12`, while `int("1__2")` and `int("1_")`
raise `ValueError`). -/
def parseLoopU (acc : Nat) (lastD : Bool) : List Char → Option Nat
  | [] => if lastD then some acc else none
  | c :: cs =>
    match digitVal c with
    | some d => parseLoopU (acc * 10 + d) true cs
    | none => if c = '_' && lastD then parseLoopU acc false cs else none

/-- Unsigned part of Python `int(str)`: must start with a digit. -/
def parseNatUnd (l : List Char) : Option Nat := parseLoopU 0 false l

/-- Python `int(s)` for a `str` argument: strip whitespace, optional sign,
decimal digits with underscore separators; `none` models `ValueError`. -/
def pyParseInt (s : List Char) : Option Int :=
  let t := stripChars s
  if t = [] then none
  else if t.headD ' ' = '-' then (parseNatUnd t.tail).map (fun n => -(n : Int))
  else if t.headD ' ' = '+' then (parseNatUnd t.tail).map (fun n => (n : Int))
  else (parseNatUnd t).map (fun n => (n : Int))

/-! Round-trip facts: `int(str(n)) = n` for a non-negative `n`.  These back
the offset-store invariants. -/

theorem digitVal_digitChar (d : Nat) (h : d ≤ 9) : digitVal (digitChar d) = some d := by
  interval_cases d <;> rfl

theorem not_space_digitChar (d : Nat) (h : d ≤ 9) : pyIsSpace (digitChar d) = false := by
  interval_cases d <;> rfl

theorem digitChar_ne_dash (d : Nat) (h : d ≤ 9) : digitChar d ≠ '-' ∧ digitChar d ≠ '+' := by
  interval_cases d <;> exact ⟨by decide, by decide⟩

theorem natToDec_ne_nil (n : Nat) : natToDec n ≠ [] := by
  rw [natToDec_eq]
  split <;> simp

theorem natToDec_all_digits (n : Nat) : ∀ c ∈ natToDec n, ∃ d, d ≤ 9 ∧ c = digitChar d := by
  induction n using Nat.strong_induction_on with
  | _ n ih =>
    rw [natToDec_eq]
    split
    · intro c hc
      simp only [List.mem_singleton] at hc
      rename_i h
      exact ⟨n, by omega, hc⟩
    · intro c hc
      rw [List.mem_append] at hc
      rcases hc with hc | hc
      · exact ih (n / 10) (Nat.div_lt_self (by omega) (by omega)) c hc
      · simp only [List.mem_singleton] at hc
        exact ⟨n % 10, by omega, hc⟩

theorem dropWhile_eq_self_of_false {p : Char → Bool} :
    ∀ l : List Char, (∀ c ∈ l, p c = false) → l.dropWhile p = l
  | [], _ => rfl
  | c :: cs, h => by
    rw [List.dropWhile]
    simp [h c (by simp)]

theorem stripChars_eq_self {l : List Char} (h : ∀ c ∈ l, pyIsSpace c = false) :
    stripChars l = l := by
  unfold stripChars
  rw [dropWhile_eq_self_of_false l h,
    dropWhile_eq_self_of_false l.reverse (fun c hc => h c (List.mem_reverse.mp hc)),
    List.reverse_reverse]

theorem stripChars_natToDec (n : Nat) : stripChars (natToDec n) = natToDec n := by
  apply stripChars_eq_self
  intro c hc
  obtain ⟨d, hd9, rfl⟩ := natToDec_all_digits n c hc
  exact not_space_digitChar d hd9

theorem parseLoopU_natToDec (n : Nat) :
    ∀ acc b ys, parseLoopU acc b (natToDec n ++ ys) =
      parseLoopU (acc * 10 ^ (natToDec n).length + n) true ys := by
  induction n using Nat.strong_induction_on with
  | _ n ih =>
    intro acc b ys
    conv_lhs => rw [natToDec_eq]
    conv_rhs => rw [natToDec_eq]
    split
    · rename_i hlt
      simp only [List.cons_append, List.nil_append, parseLoopU,
        digitVal_digitChar n (by omega), List.length_singleton]
      norm_num
    · rename_i hge
      rw [List.append_assoc, List.cons_append, List.nil_append,
        ih (n / 10) (Nat.div_lt_self (by omega) (by omega))]
      simp only [parseLoopU, digitVal_digitChar (n % 10) (by omega)]
      have hlen : (natToDec (n / 10) ++ [digitChar (n % 10)]).length =
          (natToDec (n / 10)).length + 1 := by simp
      rw [hlen]
      congr 1
      have hdm : n / 10 * 10 + n % 10 = n := by omega
      calc (acc * 10 ^ (natToDec (n / 10)).length + n / 10) * 10 + n % 10
          = acc * (10 ^ (natToDec (n / 10)).length * 10) + (n / 10 * 10 + n % 10) := by ring
        _ = acc * 10 ^ ((natToDec (n / 10)).length + 1) + n := by rw [hdm, ← pow_succ]

theorem parseNatUnd_natToDec (n : Nat) : parseNatUnd (natToDec n) = some n := by
  unfold parseNatUnd
  rw [show natToDec n = natToDec n ++ [] from (List.append_nil _).symm,
    parseLoopU_natToDec]
  simp [parseLoopU]

theorem pyParseInt_natToDec (n : Nat) : pyParseInt (natToDec n) = some (n : Int) := by
  unfold pyParseInt
  simp only [stripChars_natToDec]
  rw [if_neg (natToDec_ne_nil n)]
  rcases hd : natToDec n with _ | ⟨c, cs⟩
  · exact absurd hd (natToDec_ne_nil n)
  · obtain ⟨d, hd9, hc⟩ := natToDec_all_digits n c (by rw [hd]; simp)
    subst hc
    rw [List.headD_cons]
    rw [if_neg (digitChar_ne_dash d hd9).1]
    rw [if_neg (digitChar_ne_dash d hd9).2]
    rw [← hd]
    rw [parseNatUnd_natToDec]
    rfl

/-! ## Regular expressions

A small regex calculus sufficient for the nine `DISMISSAL_PATTERNS`
(literals, `(?:...|...)` alternation, `\s+`, and `?` optionals).  Matching
is by Brzozowski derivatives; `reSearch` models Python's unanchored
`re.search` returning whether a match exists anywhere in the text. -/

inductive RE
  | emp
  | eps
  | ch (c : Char)
  | cls (f : Char → Bool)
  | alt (r s : RE)
  | cat (r s : RE)
  | star (r : RE)

def nullable : RE → Bool
  | .emp => false
  | .eps => true
  | .ch _ => false
  | .cls _ => false
  | .alt r s => nullable r || nullable s
  | .cat r s => nullable r && nullable s
  | .star _ => true

/-- Smart `alt`: drop impossible branches so derivatives stay small. -/
def altS : RE → RE → RE
  | RE.emp, s => s
  | r, RE.emp => r
  | r, s => RE.alt r s

/-- Smart `cat`. -/
def catS : RE → RE → RE
  | RE.emp, _ => RE.emp
  | _, RE.emp => RE.emp
  | RE.eps, s => s
  | r, RE.eps => r
  | r, s => RE.cat r s

def deriv : RE → Char → RE
  | .emp, _ => .emp
  | .eps, _ => .emp
  | .ch c, a => if a = c then .eps else .emp
  | .cls f, a => if f a then .eps else .emp
  | .alt r s, a => altS (deriv r a) (deriv s a)
  | .cat r s, a =>
    if nullable r then altS (catS (deriv r a) s) (deriv s a) else catS (deriv r a) s
  | .star r, a => catS (deriv r a) (.star r)

/-- Does some prefix of the text match the pattern? -/
def preMatch : RE → List Char → Bool
  | r, [] => nullable r
  | r, c :: cs => nullable r || preMatch (deriv r c) cs

/-- Python `re.search(p, s) is not None`: a match starting anywhere. -/
def reSearch : RE → List Char → Bool
  | r, [] => nullable r
  | r, c :: cs => preMatch r (c :: cs) || reSearch r cs

/-- Literal string pattern. -/
def lit (s : String) : RE := s.data.foldr (fun c r => RE.cat (RE.ch c) r) RE.eps

/-- `(?:a|b|...)`. -/
def altL : List RE → RE
  | [] => RE.emp
  | [r] => r
  | r :: rs => RE.alt r (altL rs)

/-- Sequencing of a pattern list. -/
def catL : List RE → RE := fun l => l.foldr RE.cat RE.eps

/-- `\s+` on a `str` pattern. -/
def wsP : RE := RE.cat (RE.cls pyIsSpace) (RE.star (RE.cls pyIsSpace))

/-- `x?`. -/
def opt (r : RE) : RE := RE.alt RE.eps r

def apos : Char := Char.ofNat 39

/-! The nine `DISMISSAL_PATTERNS`, each translated from the Python regex
given in its comment. -/

-- (?:existing|pre-existing|preexisting)\s+(?:issue|bug|problem|error|defect)
def pat1 : RE := catL [altL [lit "existing", lit "pre-existing", lit "preexisting"], wsP,
  altL [lit "issue", lit "bug", lit "problem", lit "error", lit "defect"]]

-- (?:not|isn'?t|is\s+not)\s+(?:related|caused|introduced)\s+(?:to|by)\s+(?:this|our|the|my)
def pat2 : RE := catL [altL [lit "not", catL [lit "isn", opt (RE.ch apos), lit "t"],
    catL [lit "is", wsP, lit "not"]], wsP,
  altL [lit "related", lit "caused", lit "introduced"], wsP,
  altL [lit "to", lit "by"], wsP,
  altL [lit "this", lit "our", lit "the", lit "my"]]

-- unrelated\s+(?:issue|bug|problem|error|to\s+(?:this|our|the))
def pat3 : RE := catL [lit "unrelated", wsP,
  altL [lit "issue", lit "bug", lit "problem", lit "error",
    catL [lit "to", wsP, altL [lit "this", lit "our", lit "the"]]]]

-- separate\s+(?:issue|bug|problem|concern|matter)
def pat4 : RE := catL [lit "separate", wsP,
  altL [lit "issue", lit "bug", lit "problem", lit "concern", lit "matter"]]

-- (?:outside|beyond)\s+(?:the\s+)?scope\s+of\s+(?:this|our|the)
def pat5 : RE := catL [altL [lit "outside", lit "beyond"], wsP,
  opt (catL [lit "the", wsP]), lit "scope", wsP, lit "of", wsP,
  altL [lit "this", lit "our", lit "the"]]

-- (?:was\s+)?already\s+(?:present|broken|failing|there)\s+(?:before|on\s+main|in\s+main)
def pat6 : RE := catL [opt (catL [lit "was", wsP]), lit "already", wsP,
  altL [lit "present", lit "broken", lit "failing", lit "there"], wsP,
  altL [lit "before", catL [lit "on", wsP, lit "main"], catL [lit "in", wsP, lit "main"]]]

-- known\s+(?:issue|bug|problem|limitation)
def pat7 : RE := catL [lit "known", wsP,
  altL [lit "issue", lit "bug", lit "problem", lit "limitation"]]

-- not\s+something\s+we\s+introduced
def pat8 : RE := catL [lit "not", wsP, lit "something", wsP, lit "we", wsP, lit "introduced"]

-- (?:this|the)\s+(?:issue|bug|problem|error)\s+(?:is|was|appears?)\s+(?:to\s+be\s+)?(?:pre-existing|preexisting|unrelated)
def pat9 : RE := catL [altL [lit "this", lit "the"], wsP,
  altL [lit "issue", lit "bug", lit "problem", lit "error"], wsP,
  altL [lit "is", lit "was", catL [lit "appear", opt (RE.ch 's')]], wsP,
  opt (catL [lit "to", wsP, lit "be", wsP]),
  altL [lit "pre-existing", lit "preexisting", lit "unrelated"]]

def DISMISSAL_PATTERNS : List RE := [pat1, pat2, pat3, pat4, pat5, pat6, pat7, pat8, pat9]

/-- `detect_dismissal`: false on empty text, otherwise search the
lower-cased text with every pattern. -/
def detect_dismissal (text : String) : Bool :=
  if text.data.isEmpty then false
  else DISMISSAL_PATTERNS.any (fun p => reSearch p (pyLower text.data))

/-! Monotonicity of unanchored search under surrounding context. -/

theorem preMatch_append {r : RE} {xs : List Char} (ys : List Char)
    (h : preMatch r xs = true) : preMatch r (xs ++ ys) = true := by
  induction xs generalizing r with
  | nil =>
    simp only [preMatch] at h
    cases ys with
    | nil => exact h
    | cons c cs => simp [preMatch, h]
  | cons c cs ih =>
    simp only [preMatch] at h ⊢
    cases hn : nullable r with
    | true => simp
    | false =>
      rw [hn] at h
      simp only [Bool.false_or] at h ⊢
      exact ih h

theorem reSearch_append_right {r : RE} {xs : List Char} (ys : List Char)
    (h : reSearch r xs = true) : reSearch r (xs ++ ys) = true := by
  induction xs with
  | nil =>
    simp only [reSearch] at h
    cases ys with
    | nil => exact h
    | cons c cs => simp [reSearch, preMatch, h]
  | cons c cs ih =>
    simp only [reSearch] at h ⊢
    cases hp : preMatch r (c :: cs) with
    | true =>
      have h2 : preMatch r (c :: (cs ++ ys)) = true := by
        rw [← List.cons_append]
        exact preMatch_append ys hp
      simp [h2]
    | false =>
      rw [hp] at h
      simp only [Bool.false_or] at h
      simp [ih h]

theorem reSearch_append_left {r : RE} (xs : List Char) {ys : List Char}
    (h : reSearch r ys = true) : reSearch r (xs ++ ys) = true := by
  induction xs with
  | nil => exact h
  | cons c cs ih =>
    simp only [List.cons_append, reSearch]
    simp [ih]

theorem strData_append (u v : String) : (u ++ v).data = u.data ++ v.data := rfl

/-- C10: a detected dismissal is preserved under surrounding text, because
every pattern is an unanchored case-insensitive substring search. -/
theorem detect_dismissal_in_context (t u v : String)
    (h : detect_dismissal t = true) :
    detect_dismissal (u ++ t ++ v) = true := by
  unfold detect_dismissal at h ⊢
  by_cases he : t.data.isEmpty
  · rw [if_pos he] at h
    exact absurd h (by simp)
  · rw [if_neg he] at h
    have hdata : (u ++ t ++ v).data = u.data ++ t.data ++ v.data := by
      rw [strData_append, strData_append]
    have htne : t.data ≠ [] := by
      intro hnil
      exact he (by simp [hnil])
    have hne : ¬((u ++ t ++ v).data.isEmpty = true) := by
      rw [hdata]
      simp [List.isEmpty_iff, htne]
    rw [if_neg hne]
    obtain ⟨p, hp, hs⟩ := List.any_eq_true.mp h
    refine List.any_eq_true.mpr ⟨p, hp, ?_⟩
    rw [hdata]
    unfold pyLower at hs ⊢
    rw [List.map_append, List.map_append]
    exact reSearch_append_right _ (reSearch_append_left _ hs)

/-- Witness for C10 at a concrete dismissal and context. -/
theorem detect_dismissal_in_context_witness :
    detect_dismissal "known issue" = true ∧
    detect_dismissal ("a " ++ "known issue" ++ " b") = true :=
  ⟨by decide, detect_dismissal_in_context "known issue" "a " " b" (by decide)⟩

/-- C7: the classifier detects the two positive sample sentences and
rejects the negative sample and the empty string. -/
theorem classifier_concrete_cases :
    detect_dismissal "This appears to be a pre-existing issue unrelated to our changes." = true ∧
    detect_dismissal "That's a separate issue, outside the scope of this PR." = true ∧
    detect_dismissal "I fixed the bug in the parser." = false ∧
    detect_dismissal "" = false :=
  ⟨by decide, by decide, by decide, by decide⟩

/-! ## JSON values

The values `json.loads` can produce: `null` becomes Python `None`, numbers
are `int`s or `float`s (a float literal is kept as parsed, significand and
decimal exponent; `NaN`/`Infinity`/`-Infinity` are accepted by Python's
decoder), strings, arrays and objects.  Objects keep their field list; a
repeated key reads as its last occurrence, as in a Python dict built by the
decoder. -/

inductive JSON
  | null
  | bool (b : Bool)
  | num (n : Int)
  | fnum (m : Int) (e : Int)
  | nan
  | inf (neg : Bool)
  | str (s : String)
  | arr (items : List JSON)
  | obj (fields : List (String × JSON))

/-- Python `d[k]` lookup on a decoded object (last occurrence wins). -/
def dictFind (fs : List (String × JSON)) (k : String) : Option JSON :=
  (fs.reverse.find? (fun p => p.1 == k)).map (fun p => p.2)

/-- Python `d.get(k, default)`. -/
def dictGetD (fs : List (String × JSON)) (k : String) (d : JSON) : JSON :=
  (dictFind fs k).getD d

/-- Python `v == s` for a string literal `s`. -/
def isStrVal (j : JSON) (s : String) : Bool :=
  match j with
  | JSON.str t => t == s
  | _ => false

/-- The generator inside `" ".join(...)` of `extract_assistant_text`:
collect `item["text"]` over the dict items whose `type` is `"text"`.
`none` models the `TypeError` that `str.join` raises when such a `text`
value is not a string. -/
def joinTextBlocks : List JSON → Option (List String)
  | [] => some []
  | item :: rest =>
    match item with
    | JSON.obj ifs =>
      if isStrVal (dictGetD ifs "type" JSON.null) "text" then
        match dictGetD ifs "text" (JSON.str "") with
        | JSON.str s => (joinTextBlocks rest).map (fun l => s :: l)
        | _ => none
      else joinTextBlocks rest
    | _ => joinTextBlocks rest

/-- `extract_assistant_text`: pull assistant-authored text out of one
transcript entry.  `none` models an uncaught exception: `entry.get` on a
non-dict raises `AttributeError`, as does `.get("content", "")` when the
`message` field is not a dict; a non-string text block raises `TypeError`
inside the join. -/
def extract_assistant_text (entry : JSON) : Option String :=
  match entry with
  | JSON.obj fs =>
    let role := dictGetD fs "role" (JSON.str "")
    let msg_type := dictGetD fs "type" (JSON.str "")
    let content? : Option JSON :=
      if isStrVal role "assistant" then some (dictGetD fs "content" (JSON.str ""))
      else if isStrVal msg_type "assistant" then
        match dictGetD fs "message" (JSON.obj []) with
        | JSON.obj ms => some (dictGetD ms "content" (JSON.str ""))
        | _ => none
      else some JSON.null
    match content? with
    | none => none
    | some JSON.null => some ""
    | some (JSON.str s) => some s
    | some (JSON.arr items) => (joinTextBlocks items).map (fun l => String.intercalate " " l)
    | some _ => some ""
  | _ => none

/-- C1 (code bug): values that parse as valid JSON from a transcript line on
which `extract_assistant_text` raises instead of returning a string: a
non-dict record (`5`), a dict whose `message` field is not a dict, and an
assistant record whose text block carries a non-string `text`. -/
theorem extract_raises_on_valid_json :
    extract_assistant_text (JSON.num 5) = none ∧
    extract_assistant_text
      (JSON.obj [("type", JSON.str "assistant"), ("message", JSON.str "hi")]) = none ∧
    extract_assistant_text
      (JSON.obj [("role", JSON.str "assistant"),
        ("content", JSON.arr [JSON.obj [("type", JSON.str "text"), ("text", JSON.num 3)]])]) =
      none :=
  ⟨rfl, rfl, rfl⟩

/-! ## `json.loads` on one transcript line

A recursive-descent decoder for the grammar Python's `json.loads` accepts
(with `NaN`/`Infinity`/`-Infinity`, strict rejection of raw control
characters in strings, no leading zeros, last duplicate key winning).  A
fuel argument makes termination evident; the initial fuel is ample for the
input length.  A lone `\uXXXX` surrogate — which Python would keep as a
lone surrogate code unit — is mapped to U+FFFD, the one place the
embedding departs from CPython (no claim observes such a string's
contents). -/

def jsonWs (c : Char) : Bool := c = ' ' || c = '\t' || c = '\n' || c = '\r'

def skipWs (s : List Char) : List Char := s.dropWhile jsonWs

def expectLit : List Char → List Char → Option (List Char)
  | [], s => some s
  | _ :: _, [] => none
  | c :: cs, d :: ds => if c = d then expectLit cs ds else none

def hexVal (c : Char) : Option Nat :=
  if c.isDigit then some (c.toNat - 48)
  else if 'a' ≤ c && c ≤ 'f' then some (c.toNat - 87)
  else if 'A' ≤ c && c ≤ 'F' then some (c.toNat - 55)
  else none

def parseHex4 : List Char → Option (Nat × List Char)
  | a :: b :: c :: d :: rest => do
    let va ← hexVal a
    let vb ← hexVal b
    let vc ← hexVal c
    let vd ← hexVal d
    some (va * 4096 + vb * 256 + vc * 16 + vd, rest)
  | _ => none

/-- Body of a JSON string literal (after the opening quote); returns the
decoded characters and the input after the closing quote. -/
def parseJStr : Nat → List Char → Option (List Char × List Char)
  | 0, _ => none
  | Nat.succ fuel, s =>
    match s with
    | [] => none
    | c :: cs =>
      if c = '"' then some ([], cs)
      else if c = '\\' then
        match cs with
        | [] => none
        | e :: es =>
          if e = '"' then (parseJStr fuel es).map (fun p => ('"' :: p.1, p.2))
          else if e = '\\' then (parseJStr fuel es).map (fun p => ('\\' :: p.1, p.2))
          else if e = '/' then (parseJStr fuel es).map (fun p => ('/' :: p.1, p.2))
          else if e = 'b' then (parseJStr fuel es).map (fun p => (Char.ofNat 8 :: p.1, p.2))
          else if e = 'f' then (parseJStr fuel es).map (fun p => (Char.ofNat 12 :: p.1, p.2))
          else if e = 'n' then (parseJStr fuel es).map (fun p => ('\n' :: p.1, p.2))
          else if e = 'r' then (parseJStr fuel es).map (fun p => ('\r' :: p.1, p.2))
          else if e = 't' then (parseJStr fuel es).map (fun p => ('\t' :: p.1, p.2))
          else if e = 'u' then
            match parseHex4 es with
            | none => none
            | some (n, rest1) =>
              if 0xD800 ≤ n && n ≤ 0xDBFF then
                match rest1 with
                | '\\' :: 'u' :: rest2 =>
                  match parseHex4 rest2 with
                  | some (n2, rest3) =>
                    if 0xDC00 ≤ n2 && n2 ≤ 0xDFFF then
                      (parseJStr fuel rest3).map (fun p =>
                        (Char.ofNat (0x10000 + (n - 0xD800) * 1024 + (n2 - 0xDC00)) :: p.1, p.2))
                    else (parseJStr fuel rest1).map (fun p => (Char.ofNat 0xFFFD :: p.1, p.2))
                  | none => (parseJStr fuel rest1).map (fun p => (Char.ofNat 0xFFFD :: p.1, p.2))
                | _ => (parseJStr fuel rest1).map (fun p => (Char.ofNat 0xFFFD :: p.1, p.2))
              else if 0xDC00 ≤ n && n ≤ 0xDFFF then
                (parseJStr fuel rest1).map (fun p => (Char.ofNat 0xFFFD :: p.1, p.2))
              else (parseJStr fuel rest1).map (fun p => (Char.ofNat n :: p.1, p.2))
          else none
      else if c.toNat < 0x20 then none
      else (parseJStr fuel cs).map (fun p => (c :: p.1, p.2))

def isDig (c : Char) : Bool := c.isDigit

def digsVal (l : List Char) : Nat := l.foldl (fun a c => a * 10 + (c.toNat - 48)) 0

/-- Exponent suffix `e…`/`E…` of a number, if present. -/
def parseExpPart (s : List Char) : Option (Option Int × List Char) :=
  match s with
  | c :: r =>
    if c = 'e' || c = 'E' then
      let (eneg, r2) :=
        match r with
        | '-' :: r2 => (true, r2)
        | '+' :: r2 => (false, r2)
        | _ => (false, r)
      let es := r2.takeWhile isDig
      if es.isEmpty then none
      else
        let ev : Int := if eneg then -(digsVal es : Int) else (digsVal es : Int)
        some (some ev, r2.drop es.length)
    else some (none, s)
  | [] => some (none, s)

/-- A JSON number starting at its first digit; `neg` records a leading
minus.  Integer literals give `JSON.num`; a fraction or exponent gives
`JSON.fnum`. -/
def parseNum (neg : Bool) (s : List Char) : Option (JSON × List Char) :=
  let ds := s.takeWhile isDig
  if ds.isEmpty then none
  else if ds.length > 1 && ds.headD '1' = '0' then none
  else
    let intv := digsVal ds
    let rest1 := s.drop ds.length
    let fracPart : Option (Option (List Char) × List Char) :=
      match rest1 with
      | '.' :: r2 =>
        let fs := r2.takeWhile isDig
        if fs.isEmpty then none else some (some fs, r2.drop fs.length)
      | _ => some (none, rest1)
    match fracPart with
    | none => none
    | some (fdigs, rest2) =>
      match parseExpPart rest2 with
      | none => none
      | some (expv, rest3) =>
        match fdigs, expv with
        | none, none =>
          some (JSON.num (if neg then -(intv : Int) else (intv : Int)), rest3)
        | _, _ =>
          let fl := (fdigs.getD []).length
          let m0 : Nat := intv * 10 ^ fl + digsVal (fdigs.getD [])
          let m : Int := if neg then -(m0 : Int) else (m0 : Int)
          some (JSON.fnum m ((expv.getD 0) - fl), rest3)

mutual

/-- One JSON value, leading whitespace allowed. -/
def parseVal : Nat → List Char → Option (JSON × List Char)
  | 0, _ => none
  | Nat.succ fuel, s =>
    match skipWs s with
    | [] => none
    | c :: cs =>
      if c = 'n' then (expectLit ['u', 'l', 'l'] cs).map (fun r => (JSON.null, r))
      else if c = 't' then (expectLit ['r', 'u', 'e'] cs).map (fun r => (JSON.bool true, r))
      else if c = 'f' then
        (expectLit ['a', 'l', 's', 'e'] cs).map (fun r => (JSON.bool false, r))
      else if c = 'N' then (expectLit ['a', 'N'] cs).map (fun r => (JSON.nan, r))
      else if c = 'I' then
        (expectLit ['n', 'f', 'i', 'n', 'i', 't', 'y'] cs).map (fun r => (JSON.inf false, r))
      else if c = '"' then
        (parseJStr (cs.length + 1) cs).map (fun p => (JSON.str (String.mk p.1), p.2))
      else if c = '[' then parseArrItems fuel cs
      else if c = Char.ofNat 123 then parseObjItems fuel cs
      else if c = '-' then
        match cs with
        | 'I' :: cs2 =>
          (expectLit ['n', 'f', 'i', 'n', 'i', 't', 'y'] cs2).map (fun r => (JSON.inf true, r))
        | _ => parseNum true cs
      else if isDig c then parseNum false (c :: cs)
      else none

/-- Array items after `[`. -/
def parseArrItems : Nat → List Char → Option (JSON × List Char)
  | 0, _ => none
  | Nat.succ fuel, s =>
    match skipWs s with
    | ']' :: rest => some (JSON.arr [], rest)
    | s2 =>
      match parseVal fuel s2 with
      | none => none
      | some (v, rest) => parseArrRest fuel [v] rest

/-- Array items after the first: `, v … ]`. -/
def parseArrRest : Nat → List JSON → List Char → Option (JSON × List Char)
  | 0, _, _ => none
  | Nat.succ fuel, acc, s =>
    match skipWs s with
    | ',' :: rest =>
      match parseVal fuel rest with
      | none => none
      | some (v, rest2) => parseArrRest fuel (acc ++ [v]) rest2
    | ']' :: rest => some (JSON.arr acc, rest)
    | _ => none

/-- Object members after the opening brace. -/
def parseObjItems : Nat → List Char → Option (JSON × List Char)
  | 0, _ => none
  | Nat.succ fuel, s =>
    match skipWs s with
    | c :: rest =>
      if c = Char.ofNat 125 then some (JSON.obj [], rest)
      else if c = '"' then
        match parseJStr (rest.length + 1) rest with
        | none => none
        | some (k, rest2) =>
          match skipWs rest2 with
          | ':' :: rest3 =>
            match parseVal fuel rest3 with
            | none => none
            | some (v, rest4) => parseObjRest fuel [(String.mk k, v)] rest4
          | _ => none
      else none
    | [] => none

/-- Object members after the first: `, "k": v …` then the closing brace. -/
def parseObjRest : Nat → List (String × JSON) → List Char → Option (JSON × List Char)
  | 0, _, _ => none
  | Nat.succ fuel, acc, s =>
    match skipWs s with
    | c :: rest =>
      if c = Char.ofNat 125 then some (JSON.obj acc, rest)
      else if c = ',' then
        match skipWs rest with
        | '"' :: rest2 =>
          match parseJStr (rest2.length + 1) rest2 with
          | none => none
          | some (k, rest3) =>
            match skipWs rest3 with
            | ':' :: rest4 =>
              match parseVal fuel rest4 with
              | none => none
              | some (v, rest5) => parseObjRest fuel (acc ++ [(String.mk k, v)]) rest5
            | _ => none
        | _ => none
      else none
    | [] => none

end

/-- `json.loads` on one line: one value, only whitespace around it;
`none` models `json.JSONDecodeError`. -/
def pyParseJson (s : List Char) : Option JSON :=
  match parseVal (4 * s.length + 8) s with
  | some (v, rest) => if (skipWs rest).isEmpty then some v else none
  | none => none

/-! ## The per-line scan loop of `main`

For each line of the newly read content: strip it, skip it when empty or
when `json.loads` fails (`except json.JSONDecodeError: continue`), extract
assistant text, collect the non-empty texts.  `none` models an exception
escaping from the extractor (which `main` does not catch). -/

def scanLines : List (List Char) → Option (List String)
  | [] => some []
  | l :: ls =>
    if (stripChars l).isEmpty then scanLines ls
    else
      match pyParseJson (stripChars l) with
      | none => scanLines ls
      | some entry =>
        match extract_assistant_text entry with
        | none => none
        | some t => if t.data.isEmpty then scanLines ls else (scanLines ls).map (fun r => t :: r)

/-- C9: a line that fails to parse as JSON is skipped individually; the
lines before and after it contribute exactly what they would have
contributed had the bad line not been there. -/
theorem scan_skips_unparsable_line (xs ys : List (List Char)) (bad : List Char)
    (h : pyParseJson (stripChars bad) = none) :
    scanLines (xs ++ bad :: ys) = scanLines (xs ++ ys) := by
  induction xs with
  | nil =>
    simp only [List.nil_append, scanLines]
    by_cases he : (stripChars bad).isEmpty
    · rw [if_pos he]
    · rw [if_neg he, h]
  | cons l ls ih =>
    simp only [List.cons_append, scanLines, List.append_eq]
    rw [ih]

/-- Witness for C9: a corrupt line between two valid assistant records is
skipped, and both neighbours are still extracted. -/
theorem scan_skips_unparsable_line_witness :
    pyParseJson (stripChars ("\x7boops".data)) = none ∧
    scanLines (["\x7b\"role\": \"assistant\", \"content\": \"a known issue\"\x7d".data] ++
        "\x7boops".data ::
        ["\x7b\"role\": \"assistant\", \"content\": \"fine\"\x7d".data]) =
      scanLines (["\x7b\"role\": \"assistant\", \"content\": \"a known issue\"\x7d".data] ++
        ["\x7b\"role\": \"assistant\", \"content\": \"fine\"\x7d".data]) ∧
    scanLines (["\x7b\"role\": \"assistant\", \"content\": \"a known issue\"\x7d".data] ++
        ["\x7b\"role\": \"assistant\", \"content\": \"fine\"\x7d".data]) =
      some ["a known issue", "fine"] :=
  ⟨rfl, scan_skips_unparsable_line _ _ _ rfl, rfl⟩

/-! ## Raw bytes of the transcript file

`f.seek(0, 2); f.tell()` yields the byte size of the file, and the hook
seeks to byte offsets, so the transcript is modelled as its byte sequence.
`utf8Decode` is strict UTF-8 decoding (`errors="strict"`), with `none`
modelling `UnicodeDecodeError` — which `except (IOError, OSError)` does
not catch.  `univNewlines` is the universal-newline translation a text-mode
`read()` applies. -/

def contB (b : Nat) : Bool := 0x80 ≤ b && b ≤ 0xBF

def utf8Decode : List Nat → Option (List Char)
  | [] => some []
  | b :: rest =>
    if b < 0x80 then (utf8Decode rest).map (fun l => Char.ofNat b :: l)
    else if 0xC2 ≤ b && b ≤ 0xDF then
      match rest with
      | b1 :: r2 =>
        if contB b1 then
          (utf8Decode r2).map (fun l => Char.ofNat ((b - 0xC0) * 64 + (b1 - 0x80)) :: l)
        else none
      | _ => none
    else if 0xE0 ≤ b && b ≤ 0xEF then
      match rest with
      | b1 :: b2 :: r3 =>
        if ((if b = 0xE0 then 0xA0 else 0x80) ≤ b1 && b1 ≤ (if b = 0xED then 0x9F else 0xBF))
            && contB b2 then
          (utf8Decode r3).map (fun l =>
            Char.ofNat ((b - 0xE0) * 4096 + (b1 - 0x80) * 64 + (b2 - 0x80)) :: l)
        else none
      | _ => none
    else if 0xF0 ≤ b && b ≤ 0xF4 then
      match rest with
      | b1 :: b2 :: b3 :: r4 =>
        if ((if b = 0xF0 then 0x90 else 0x80) ≤ b1 && b1 ≤ (if b = 0xF4 then 0x8F else 0xBF))
            && contB b2 && contB b3 then
          (utf8Decode r4).map (fun l =>
            Char.ofNat ((b - 0xF0) * 262144 + (b1 - 0x80) * 4096 + (b2 - 0x80) * 64 + (b3 - 0x80)) :: l)
        else none
      | _ => none
    else none

def univNewlines : List Char → List Char
  | [] => []
  | [c] => if c = '\r' then ['\n'] else [c]
  | c :: d :: rest =>
    if c = '\r' then
      if d = '\n' then '\n' :: univNewlines rest
      else '\n' :: univNewlines (d :: rest)
    else c :: univNewlines (d :: rest)

/-! ## Python `str()` of a decoded JSON value

Needed because `offset_path` interpolates the raw `session_id` value into
an f-string even when it is not a string.  Scalars follow CPython exactly;
container and float renderings are simplified (they would only change which
temp-file name a pathological non-string session id maps to). -/

mutual

def reprJ : JSON → String
  | JSON.null => "None"
  | JSON.bool true => "True"
  | JSON.bool false => "False"
  | JSON.num n => String.mk (intToDec n)
  | JSON.fnum m e => String.mk (intToDec m) ++ "e" ++ String.mk (intToDec e)
  | JSON.nan => "nan"
  | JSON.inf true => "-inf"
  | JSON.inf false => "inf"
  | JSON.str s => "'" ++ s ++ "'"
  | JSON.arr l => "[" ++ reprList l ++ "]"
  | JSON.obj l => "\x7b" ++ reprPairs l ++ "\x7d"

def reprList : List JSON → String
  | [] => ""
  | [j] => reprJ j
  | j :: rest => reprJ j ++ ", " ++ reprList rest

def reprPairs : List (String × JSON) → String
  | [] => ""
  | [(k, v)] => "'" ++ k ++ "': " ++ reprJ v
  | (k, v) :: rest => "'" ++ k ++ "': " ++ reprJ v ++ ", " ++ reprPairs rest

end

/-- Python `str(v)`. -/
def pyStr : JSON → String
  | JSON.str s => s
  | j => reprJ j

/-- Python truthiness of a decoded JSON value. -/
def pyTruthy : JSON → Bool
  | JSON.null => false
  | JSON.bool b => b
  | JSON.num n => n != 0
  | JSON.fnum m _ => m != 0
  | JSON.nan => true
  | JSON.inf _ => true
  | JSON.str s => !s.data.isEmpty
  | JSON.arr l => !l.isEmpty
  | JSON.obj l => !l.isEmpty

/-! ## The offset store -/

/-- The pieces of the file system holding the per-session offset files:
path to file contents. -/
def Store := String → Option String

/-- `tempfile.gettempdir()`, fixed at its conventional value. -/
def tempdir : String := "/tmp"

/-- `offset_path`: the per-session offset file. -/
def offset_path (session_id : String) : String :=
  tempdir ++ "/" ++ "unrelated-issue-" ++ session_id ++ ".offset"

/-- `read_offset`: `int(contents.strip())`, with 0 for a missing file or an
unparsable value (`except (IOError, ValueError)`). -/
def read_offset (store : Store) (session_id : String) : Int :=
  match store (offset_path session_id) with
  | none => 0
  | some s =>
    match pyParseInt (stripChars s.data) with
    | none => 0
    | some n => n

/-- `save_offset`: best-effort write of `str(offset)`; an unwritable store
(`except OSError: pass`) leaves everything unchanged. -/
def save_offset (store : Store) (session_id : String) (offset : Int) (writable : Bool) : Store :=
  if writable then
    fun k => if k = offset_path session_id then some (String.mk (intToDec offset)) else store k
  else store

/-! ## The hook entry point -/

/-- The fixed instruction payload, exactly the source constant. -/
def INVESTIGATION_INSTRUCTIONS : String := "STOP. You just dismissed an issue as \"unrelated\" or \"pre-existing\". You MUST investigate before moving on.\n\nUse the Task tool to spawn a parallel investigation agent with these exact parameters:\n- subagent_type: \"general-purpose\"\n- isolation: \"worktree\"\n- model: \"haiku\"\n- run_in_background: true\n\nIn the prompt, include the FULL description of the issue you dismissed (error messages, symptoms, affected code, reproduction steps — everything the investigation agent needs to work independently).\n\nThe investigation agent must follow these steps:\n\n1. **Identify the issue**: Clearly state what was dismissed as unrelated.\n2. **Reproduce on main**: The worktree starts on HEAD. Checkout the main branch (`git checkout main`) and attempt to reproduce the exact same issue/error.\n3. **Report findings**:\n   - **If the issue REPRODUCES on main** (truly pre-existing): file a GitHub issue using `gh issue create` with:\n     - Clear title prefixed with the affected component\n     - Full description of the issue\n     - Steps to reproduce on main\n     - Expected vs actual behavior\n     - Note: \"Discovered while working on [branch-name]\"\n     - Label: `bug`\n   - **If the issue does NOT reproduce on main** (introduced by current changes): exit and report that the issue is NOT pre-existing and the original agent MUST fix it.\n\nAfter the investigation agent completes:\n- If a bug was filed (truly unrelated): you may proceed with your current task.\n- If the issue is NOT pre-existing: you MUST fix it before continuing. Do NOT dismiss it again.\n\nDo NOT skip this investigation. Do NOT dismiss issues without evidence."

/-- The one directive `main` can print. -/
def directive : JSON :=
  JSON.obj [("decision", JSON.str "block"), ("reason", JSON.str INVESTIGATION_INSTRUCTIONS)]

inductive ExitKind
  | ok
  | uncaught
  deriving DecidableEq

/-- Exit status 0 (`ok`, every `sys.exit(0)` path) or the nonzero exit of an
uncaught exception (`uncaught`). -/
structure Result where
  store : Store
  output : Option JSON
  exit : ExitKind

/-- One hook invocation's surroundings: the parsed stdin event (`none` when
`json.load` raises), the readable text files by path, and whether the
offset directory accepts writes. -/
structure Env where
  stdin : Option JSON
  files : String → Option (List Nat)
  writable : Bool

/-- The bytes the reader sees after seeking to `off`: nothing when the file
has not grown past the offset. -/
def readNew (t : List Nat) (off : Int) : List Nat :=
  if (t.length : Int) ≤ off then [] else t.drop off.toNat

/-- The offset recorded after one look at a transcript of bytes `t`:
unchanged when the file has not grown, else the current size. -/
def advance (t : List Nat) (off : Int) : Int :=
  if (t.length : Int) ≤ off then off else (t.length : Int)

/-- `main` from the size check onwards, once the transcript bytes are in
hand.  The offset is committed (`save_offset`) before the scan loop and the
classifier run, so a scan-time exception still leaves it advanced. -/
def afterOpen (store : Store) (session_id : String) (w : Bool) (bytes : List Nat) : Result :=
  if (bytes.length : Int) ≤ read_offset store session_id then ⟨store, none, ExitKind.ok⟩
  else if read_offset store session_id < 0 then ⟨store, none, ExitKind.uncaught⟩
  else
    match utf8Decode (readNew bytes (read_offset store session_id)) with
    | none => ⟨store, none, ExitKind.uncaught⟩
    | some chars =>
      match scanLines (splitNL (stripChars (univNewlines chars))) with
      | none => ⟨save_offset store session_id (bytes.length : Int) w, none, ExitKind.uncaught⟩
      | some texts =>
        if detect_dismissal (String.intercalate "\n" texts) then
          ⟨save_offset store session_id (bytes.length : Int) w, some directive, ExitKind.ok⟩
        else ⟨save_offset store session_id (bytes.length : Int) w, none, ExitKind.ok⟩

/-- The hook process, one invocation.  Notes on the uncaught branches:
`input_data.get` on a non-dict stdin value raises `AttributeError`;
`open()` on a truthy non-string, non-number path raises `TypeError`;
a numeric (or boolean) path names a file descriptor, whose open/seek fails
with a caught `OSError` in this model; a negative stored offset makes
`f.seek` raise `ValueError`; undecodable bytes raise `UnicodeDecodeError`;
and an extractor exception escapes the scan loop — none of these are
caught by the source's handlers.  The pure `read_offset` call is written
inside `afterOpen` though the source reads it just before opening the
file; both orders compute the same values. -/
def main (env : Env) (store : Store) : Result :=
  match env.stdin with
  | none => ⟨store, none, ExitKind.ok⟩
  | some (JSON.obj fs) =>
    let session_id := pyStr (dictGetD fs "session_id" (JSON.str "unknown"))
    let tp := dictGetD fs "transcript_path" (JSON.str "")
    if pyTruthy tp then
      match tp with
      | JSON.str p =>
        match env.files p with
        | none => ⟨store, none, ExitKind.ok⟩
        | some bytes => afterOpen store session_id env.writable bytes
      | JSON.num _ => ⟨store, none, ExitKind.ok⟩
      | JSON.bool _ => ⟨store, none, ExitKind.ok⟩
      | JSON.null => ⟨store, none, ExitKind.ok⟩
      | _ => ⟨store, none, ExitKind.uncaught⟩
    else ⟨store, none, ExitKind.ok⟩
  | some _ => ⟨store, none, ExitKind.uncaught⟩

/-- Successive hook invocations threading the offset store. -/
def runTrace : List Env → Store → Store
  | [], s => s
  | e :: es, s => runTrace es (main e s).store

/-! ## Offset-store invariants -/

theorem intToDec_ofNat (n : Nat) : intToDec (n : Int) = natToDec n := by
  unfold intToDec
  rw [if_neg (Int.not_lt.mpr (Int.natCast_nonneg n)), Int.toNat_natCast]

/-- Reading back the decimal string `save_offset` writes recovers the size. -/
theorem parse_back (n : Nat) :
    pyParseInt (stripChars (String.mk (intToDec (n : Int))).data) = some (n : Int) := by
  have h1 : (String.mk (intToDec (n : Int))).data = intToDec (n : Int) := rfl
  rw [h1, intToDec_ofNat, stripChars_natToDec, pyParseInt_natToDec]

theorem read_offset_save_eq (store : Store) (sidM q : String) (n : Nat)
    (hk : offset_path q = offset_path sidM) :
    read_offset (save_offset store sidM (n : Int) true) q = (n : Int) := by
  have hload : (save_offset store sidM (n : Int) true) (offset_path q) =
      some (String.mk (intToDec (n : Int))) := by
    simp [save_offset, hk]
  unfold read_offset
  rw [hload]
  dsimp only
  rw [parse_back n]

theorem save_offset_commits (store : Store) (sid : String) (n : Nat) :
    (save_offset store sid (n : Int) true) (offset_path sid) =
      some (String.mk (intToDec (n : Int))) ∧
    read_offset (save_offset store sid (n : Int) true) sid = (n : Int) :=
  ⟨by simp [save_offset], read_offset_save_eq store sid sid n rfl⟩

/-- A `save_offset` guarded by "the file grew" never lowers any stored
offset, whichever session's record is inspected. -/
theorem read_offset_save_ge (store : Store) (sidM q : String) (n : Nat) (w : Bool)
    (hgt : read_offset store sidM < (n : Int)) :
    read_offset store q ≤ read_offset (save_offset store sidM (n : Int) w) q := by
  cases w with
  | false => exact le_refl _
  | true =>
    by_cases hk : offset_path q = offset_path sidM
    · have hq : read_offset store q = read_offset store sidM := by
        unfold read_offset
        rw [hk]
      rw [read_offset_save_eq store sidM q n hk, hq]
      exact le_of_lt hgt
    · have hload : (save_offset store sidM (n : Int) true) (offset_path q) =
          store (offset_path q) := by
        simp [save_offset, hk]
      have hsame : read_offset (save_offset store sidM (n : Int) true) q =
          read_offset store q := by
        unfold read_offset
        rw [hload]
      rw [hsame]

theorem afterOpen_monotone (store : Store) (sid q : String) (w : Bool) (bytes : List Nat) :
    read_offset store q ≤ read_offset (afterOpen store sid w bytes).store q := by
  unfold afterOpen
  by_cases h1 : (bytes.length : Int) ≤ read_offset store sid
  · rw [if_pos h1]
  · rw [if_neg h1]
    have hgt : read_offset store sid < (bytes.length : Int) := not_le.mp h1
    by_cases h2 : read_offset store sid < 0
    · rw [if_pos h2]
    · rw [if_neg h2]
      cases hdec : utf8Decode (readNew bytes (read_offset store sid)) with
      | none => exact le_refl _
      | some chars =>
        dsimp only
        cases hscan : scanLines (splitNL (stripChars (univNewlines chars))) with
        | none => exact read_offset_save_ge store sid q bytes.length w hgt
        | some texts =>
          dsimp only
          by_cases hdet : detect_dismissal (String.intercalate "\n" texts) = true
          · rw [if_pos hdet]
            exact read_offset_save_ge store sid q bytes.length w hgt
          · rw [if_neg hdet]
            exact read_offset_save_ge store sid q bytes.length w hgt

/-- One invocation never lowers any session's stored offset. -/
theorem main_step_monotone (env : Env) (store : Store) (q : String) :
    read_offset store q ≤ read_offset (main env store).store q := by
  unfold main
  cases hstdin : env.stdin with
  | none => exact le_refl _
  | some j =>
    cases j with
    | obj fs =>
      dsimp only
      by_cases htr : pyTruthy (dictGetD fs "transcript_path" (JSON.str "")) = true
      · rw [if_pos htr]
        cases hpath : dictGetD fs "transcript_path" (JSON.str "") with
        | str p =>
          dsimp only
          cases hf : env.files p with
          | none => exact le_refl _
          | some bytes => exact afterOpen_monotone store _ q env.writable bytes
        | null => exact le_refl _
        | bool b => exact le_refl _
        | num n => exact le_refl _
        | fnum m e => exact le_refl _
        | nan => exact le_refl _
        | inf b => exact le_refl _
        | arr l => exact le_refl _
        | obj l => exact le_refl _
      · rw [if_neg htr]
    | null => exact le_refl _
    | bool b => exact le_refl _
    | num n => exact le_refl _
    | fnum m e => exact le_refl _
    | nan => exact le_refl _
    | inf b => exact le_refl _
    | str s => exact le_refl _
    | arr l => exact le_refl _

/-- C5: across any sequence of invocations, whatever each one's stdin,
files and classification outcome, the stored offset of every session is
monotonically non-decreasing — it never rewinds, even on classification
failure. -/
theorem offset_monotone_trace (envs : List Env) (store : Store) (sid : String) :
    read_offset store sid ≤ read_offset (runTrace envs store) sid := by
  induction envs generalizing store with
  | nil => exact le_refl _
  | cons e es ih =>
    exact le_trans (main_step_monotone e store sid) (ih (main e store).store)

theorem pyTruthy_str {p : String} (h : p ≠ "") : pyTruthy (JSON.str p) = true := by
  unfold pyTruthy
  cases p with
  | mk data =>
    cases data with
    | nil => exact absurd rfl h
    | cons c cs => rfl

/-- With a parsed event naming a readable transcript, `main` is exactly the
post-open phase. -/
theorem main_reduces_to_afterOpen (env : Env) (store : Store)
    (fs : List (String × JSON)) (p : String) (bytes : List Nat)
    (hstdin : env.stdin = some (JSON.obj fs))
    (hpath : dictGetD fs "transcript_path" (JSON.str "") = JSON.str p)
    (hne : p ≠ "")
    (hfile : env.files p = some bytes) :
    main env store =
      afterOpen store (pyStr (dictGetD fs "session_id" (JSON.str "unknown")))
        env.writable bytes := by
  unfold main
  rw [hstdin]
  dsimp only
  rw [hpath, if_pos (pyTruthy_str hne)]
  dsimp only
  rw [hfile]

/-- C3: whenever the transcript is readable, its bytes past the stored
non-negative offset decode, the file has grown, and the store accepts
writes, the offset file afterwards holds exactly the current size — with no
assumption at all on what the scan loop or the classifier then do. -/
theorem offset_committed_before_classification
    (env : Env) (store : Store) (fs : List (String × JSON)) (p sid : String)
    (bytes : List Nat) (chars : List Char)
    (hstdin : env.stdin = some (JSON.obj fs))
    (hsid : sid = pyStr (dictGetD fs "session_id" (JSON.str "unknown")))
    (hpath : dictGetD fs "transcript_path" (JSON.str "") = JSON.str p)
    (hne : p ≠ "")
    (hfile : env.files p = some bytes)
    (hw : env.writable = true)
    (hnn : 0 ≤ read_offset store sid)
    (hlt : read_offset store sid < (bytes.length : Int))
    (hdec : utf8Decode (readNew bytes (read_offset store sid)) = some chars) :
    (main env store).store (offset_path sid) =
      some (String.mk (intToDec (bytes.length : Int))) ∧
    read_offset (main env store).store sid = (bytes.length : Int) := by
  rw [main_reduces_to_afterOpen env store fs p bytes hstdin hpath hne hfile, ← hsid, hw]
  unfold afterOpen
  rw [if_neg (not_le.mpr hlt), if_neg (not_lt.mpr hnn), hdec]
  dsimp only
  cases hscan : scanLines (splitNL (stripChars (univNewlines chars))) with
  | none => exact save_offset_commits store sid bytes.length
  | some texts =>
    dsimp only
    by_cases hdet : detect_dismissal (String.intercalate "\n" texts) = true
    · rw [if_pos hdet]
      exact save_offset_commits store sid bytes.length
    · rw [if_neg hdet]
      exact save_offset_commits store sid bytes.length

def envC3 : Env :=
  ⟨some (JSON.obj [("session_id", JSON.str "s"), ("transcript_path", JSON.str "t")]),
    fun p => if p = "t" then some [123, 125] else none, true⟩

/-- Witness for C3: an empty store, a two-byte transcript. -/
theorem offset_committed_before_classification_witness :
    (main envC3 (fun _ => none)).store (offset_path "s") = some "2" ∧
    read_offset (main envC3 (fun _ => none)).store "s" = (2 : Int) := by
  have h := offset_committed_before_classification envC3 (fun _ => none)
    [("session_id", JSON.str "s"), ("transcript_path", JSON.str "t")] "t" "s"
    [123, 125] [Char.ofNat 123, Char.ofNat 125]
    rfl rfl rfl (by decide) rfl rfl (by decide) (by decide) rfl
  refine ⟨?_, h.2⟩
  rw [h.1]
  decide

/-- C6: when the transcript has not grown past the stored offset, the hook
leaves the store untouched, prints nothing, and exits normally (in
particular the guarded branch performs no read at all). -/
theorem quiet_when_not_grown
    (env : Env) (store : Store) (fs : List (String × JSON)) (p : String) (bytes : List Nat)
    (hstdin : env.stdin = some (JSON.obj fs))
    (hpath : dictGetD fs "transcript_path" (JSON.str "") = JSON.str p)
    (hne : p ≠ "")
    (hfile : env.files p = some bytes)
    (hle : (bytes.length : Int) ≤
      read_offset store (pyStr (dictGetD fs "session_id" (JSON.str "unknown")))) :
    main env store = ⟨store, none, ExitKind.ok⟩ := by
  rw [main_reduces_to_afterOpen env store fs p bytes hstdin hpath hne hfile]
  unfold afterOpen
  rw [if_pos hle]

def envC6 : Env :=
  ⟨some (JSON.obj [("session_id", JSON.str "s"), ("transcript_path", JSON.str "t")]),
    fun p => if p = "t" then some [97, 98, 99] else none, true⟩

/-- Witness for C6: a three-byte transcript against a stored offset of 5. -/
theorem quiet_when_not_grown_witness :
    main envC6 (fun _ => some "5") = ⟨(fun _ => some "5"), none, ExitKind.ok⟩ :=
  quiet_when_not_grown envC6 (fun _ => some "5")
    [("session_id", JSON.str "s"), ("transcript_path", JSON.str "t")] "t" [97, 98, 99]
    rfl rfl (by decide) rfl (by decide)

def env5 : Env :=
  ⟨some (JSON.obj [("session_id", JSON.str "s"), ("transcript_path", JSON.str "t")]),
    fun p => if p = "t" then some [53] else none, true⟩

/-- C2 (code bug): a transcript whose one line is `5` — valid JSON — drives
`extract_assistant_text` into an uncaught `AttributeError`, so the process
exits with a nonzero status; the offset was already committed when it died. -/
theorem main_crashes_on_valid_json_transcript :
    (main env5 (fun _ => none)).exit = ExitKind.uncaught ∧
    (main env5 (fun _ => none)).store (offset_path "s") = some "1" :=
  ⟨by decide, by decide⟩

/-- C8 counterexample: an offset record holding `-5` parses fine, so
`read_offset` returns a negative integer, contradicting the claimed
`integer ≥ 0` contract. -/
theorem read_offset_negative_on_tampered_store :
    read_offset (fun _ => some "-5") "s" < 0 := by decide

/-- C8 amended: `read_offset` is total and returns 0 whenever the record is
absent or its text is unparsable; when the record holds a decimal numeral
(anything `save_offset` writes) it returns exactly that non-negative value.
A tampered record holding a negative decimal is returned as is. -/
theorem read_offset_amended (store : Store) (sid : String) :
    (store (offset_path sid) = none → read_offset store sid = 0) ∧
    (∀ s, store (offset_path sid) = some s → pyParseInt (stripChars s.data) = none →
      read_offset store sid = 0) ∧
    (∀ n : Nat, store (offset_path sid) = some (String.mk (natToDec n)) →
      read_offset store sid = (n : Int) ∧ 0 ≤ read_offset store sid) := by
  refine ⟨?_, ?_, ?_⟩
  · intro h
    unfold read_offset
    rw [h]
  · intro s hs hp
    unfold read_offset
    rw [hs]
    dsimp only
    rw [hp]
  · intro n hn
    have hv : read_offset store sid = (n : Int) := by
      unfold read_offset
      rw [hn]
      dsimp only
      rw [stripChars_natToDec, pyParseInt_natToDec]
    exact ⟨hv, by rw [hv]; exact Int.natCast_nonneg n⟩

/-- Witness for the amended C8, covering the three regimes. -/
theorem read_offset_amended_witness :
    read_offset (fun _ => none) "s" = 0 ∧
    read_offset (fun _ => some "junk") "s" = 0 ∧
    read_offset (fun _ => some "7") "s" = (7 : Int) :=
  ⟨(read_offset_amended (fun _ => none) "s").1 rfl,
   (read_offset_amended (fun _ => some "junk") "s").2.1 "junk" rfl (by decide),
   ((read_offset_amended (fun _ => some "7") "s").2.2 7 (by decide)).1⟩

/-! ## The reader's byte-range accounting (C4) -/

/-- The reads and final offset of a run of invocations, one transcript
snapshot per invocation, starting from offset `off`. -/
def runReads : Int → List (List Nat) → Int × List (List Nat)
  | off, [] => (off, [])
  | off, t :: ts =>
    ((runReads (advance t off) ts).1, readNew t off :: (runReads (advance t off) ts).2)

/-- The append-only hypothesis: each snapshot extends the previous one. -/
def chainB : List (List Nat) → Bool
  | [] => true
  | [_] => true
  | a :: b :: rest => a.isPrefixOf b && chainB (b :: rest)

theorem runReads_reconstruct : ∀ (ts : List (List Nat)) (c : List Nat),
    chainB (c :: ts) = true →
    c ++ (runReads (c.length : Int) ts).2.flatten = ts.getLastD c := by
  intro ts
  induction ts with
  | nil =>
    intro c _
    simp [runReads]
  | cons t ts ih =>
    intro c h
    rw [show chainB (c :: t :: ts) = (c.isPrefixOf t && chainB (t :: ts)) from rfl,
      Bool.and_eq_true] at h
    obtain ⟨hpre, hch⟩ := h
    have hpre' : c <+: t := by rwa [List.isPrefixOf_iff_prefix] at hpre
    have hlen : c.length ≤ t.length := hpre'.length_le
    simp only [runReads, List.flatten_cons, List.getLastD_cons]
    by_cases heq : t.length ≤ c.length
    · have hceq : c = t := List.IsPrefix.eq_of_length hpre' (by omega)
      subst hceq
      have hadv : advance c (c.length : Int) = (c.length : Int) := by
        unfold advance
        rw [if_pos (le_refl _)]
      have hrn : readNew c (c.length : Int) = [] := by
        unfold readNew
        rw [if_pos (le_refl _)]
      rw [hadv, hrn, List.nil_append, ih c hch]
    · have hlt : c.length < t.length := by omega
      have hcast : ¬ ((t.length : Int) ≤ (c.length : Int)) := by exact_mod_cast heq
      have hadv : advance t (c.length : Int) = (t.length : Int) := by
        unfold advance
        rw [if_neg hcast]
      have hrn : readNew t (c.length : Int) = t.drop c.length := by
        unfold readNew
        rw [if_neg hcast, Int.toNat_natCast]
      obtain ⟨s, hs⟩ := hpre'
      have hcd : c ++ t.drop c.length = t := by
        conv_rhs => rw [← hs]
        rw [← hs, List.drop_left]
      rw [hadv, hrn, ← List.append_assoc, hcd, ih t hch]

/-- C4: over any contiguous run of invocations on an append-only transcript
starting from offset 0, the concatenation of the byte ranges read is
exactly the final transcript — each byte seen once, no overlap, no gap. -/
theorem reads_reconstruct_appended (ts : List (List Nat)) (h : chainB ts = true) :
    (runReads 0 ts).2.flatten = ts.getLastD [] := by
  have hc : chainB ([] :: ts) = true := by
    cases ts with
    | nil => rfl
    | cons t ts2 =>
      have h0 : ([] : List Nat).isPrefixOf t = true := by
        rw [List.isPrefixOf_iff_prefix]
        exact List.nil_prefix
      rw [show chainB ([] :: t :: ts2) =
        (([] : List Nat).isPrefixOf t && chainB (t :: ts2)) from rfl]
      rw [h0, h]
      rfl
  have h2 := runReads_reconstruct ts [] hc
  simpa using h2

/-- Witness for C4 on a three-step growth. -/
theorem reads_reconstruct_appended_witness :
    chainB [[1], [1, 2], [1, 2, 3]] = true ∧
    (runReads 0 [[1], [1, 2], [1, 2, 3]]).2.flatten = [1, 2, 3] :=
  ⟨by decide, reads_reconstruct_appended [[1], [1, 2], [1, 2, 3]] (by decide)⟩

end Detector
